import Mathlib

/-!
# Verification of the Cognito-protected API stack

Shallow embedding of `cdk-cognito-api-postman`: the domain-prefix
generation algorithm of `CognitoConstruct`, the configuration values of
the user pool, client and API gateway authorizer, the inline Lambda
handler, and spec-modelled behaviour of the managed identity provider
and gateway (token verification pipeline, verification cache, login,
sign-up password gate).  Strings from the TypeScript source are embedded
as `List Char`.
-/

namespace CognitoDemo

/-! ## Character classes (ASCII, as used by the JS regexes of the source) -/

/-- `c` is an ASCII lowercase letter `a`-`z` (codepoints 97-122). -/
def isLowerAscii (c : Char) : Bool := 97 ≤ c.toNat && c.toNat ≤ 122

/-- `c` is an ASCII uppercase letter `A`-`Z` (codepoints 65-90). -/
def isUpperAscii (c : Char) : Bool := 65 ≤ c.toNat && c.toNat ≤ 90

/-- `c` is an ASCII digit `0`-`9` (codepoints 48-57). -/
def isDigitAscii (c : Char) : Bool := 48 ≤ c.toNat && c.toNat ≤ 57

/-- The character class `[a-z0-9-]` of the sanitizing regex in
`api-gateway-construct.ts` (`.replace(/[^a-z0-9-]/g, "-")`):
lowercase ASCII letter, ASCII digit, or hyphen (codepoint 45). -/
def allowedChar (c : Char) : Bool :=
  isLowerAscii c || isDigitAscii c || c.toNat = 45

/-! ## Domain-prefix generation (`CognitoConstruct`, the one original algorithm)

```ts
const uniqueDomainPrefix = `${stack.stackName.toLowerCase()}-${stack.region}-${randomSuffix}`
  .substring(0, 63)
  .replace(/[^a-z0-9-]/g, "-")
  .replace(/cognito/g, "auth");
```
-/

/-- The pattern of the de-branding regex `/cognito/g`. -/
def cognitoPat : List Char := ['c', 'o', 'g', 'n', 'i', 't', 'o']

/-- The replacement string of the de-branding step. -/
def authRep : List Char := ['a', 'u', 't', 'h']

/-- `String.prototype.replace(/cognito/g, "auth")`: scan left to right;
at a position starting the 7 characters `cognito` emit `auth` and skip
past the match, otherwise keep the character and advance by one. -/
def replaceCognito : List Char → List Char
  | 'c' :: 'o' :: 'g' :: 'n' :: 'i' :: 't' :: 'o' :: rest =>
      authRep ++ replaceCognito rest
  | c :: rest => c :: replaceCognito rest
  | [] => []

/-- One character of `.replace(/[^a-z0-9-]/g, "-")`: characters outside
`[a-z0-9-]` become `-`. -/
def sanitizeChar (c : Char) : Char :=
  if allowedChar c then c else '-'

/-- `.replace(/[^a-z0-9-]/g, "-")` over the whole string. -/
def sanitize (s : List Char) : List Char := s.map sanitizeChar

/-- ASCII lowering of one character, as `String.prototype.toLowerCase`
acts on the ASCII range (the only range exercised by stack names here). -/
def lowerChar (c : Char) : Char :=
  if isUpperAscii c then Char.ofNat (c.toNat + 32) else c

/-- The template string
`` `${stack.stackName.toLowerCase()}-${stack.region}-${randomSuffix}` ``. -/
def composeStage (stackName region randomSuffix : List Char) : List Char :=
  stackName.map lowerChar ++ ['-'] ++ region ++ ['-'] ++ randomSuffix

/-- `.substring(0, 63)`: truncation to the 63-character maximum label
length. -/
def truncateStage (s : List Char) : List Char := s.take 63

/-- `.replace(/[^a-z0-9-]/g, "-")` as a named stage. -/
def sanitizeStage (s : List Char) : List Char := sanitize s

/-- `.replace(/cognito/g, "auth")` as a named stage. -/
def debrandStage (s : List Char) : List Char := replaceCognito s

/-- `uniqueDomainPrefix` exactly as chained in `CognitoConstruct`:
compose the template string, truncate to 63, sanitize the character set,
then de-brand. -/
def uniqueDomainPrefix (stackName region randomSuffix : List Char) : List Char :=
  replaceCognito (sanitize ((stackName.map lowerChar ++ ['-'] ++ region
    ++ ['-'] ++ randomSuffix).take 63))

/-! ## Random suffix (`Math.random().toString(36).substring(2, 8)`)

`Math.random()` returns a double in `[0, 1)`.  Its `toString(36)` is
`"0"` when the value is zero and otherwise `"0."` followed by the
(nonempty) base-36 digit expansion of the fractional part, each digit in
`[0-9a-z]`.  We model the randomness source by the digit expansion it
produces. -/

/-- `c` is a base-36 digit as produced by `Number.prototype.toString(36)`:
an ASCII digit or lowercase letter. -/
def base36Digit (c : Char) : Bool := isDigitAscii c || isLowerAscii c

/-- `Number.prototype.toString(36)` on a value in `[0, 1)` whose
fractional base-36 expansion is `digits`: `"0"` for zero, otherwise
`"0."` followed by the digits. -/
def toString36 (digits : List Char) : List Char :=
  if digits.isEmpty then ['0'] else '0' :: '.' :: digits

/-- `Math.random().toString(36).substring(2, 8)`: characters at indices
2 through 7 of the decimal string. -/
def randomSuffix (digits : List Char) : List Char :=
  ((toString36 digits).drop 2).take 6

/-! ## Gateway token verification (spec-modelled)

Token verification, the authorization cache and the IdP behaviours are
enforced by the managed services; this repository only configures them
(`CognitoUserPoolsAuthorizer` with `resultsCacheTtl: Duration.minutes(5)`,
`authorizationScopes: ["email", "openid", "profile"]`, the user-pool
client with 60-minute access tokens).  The pipeline below is modelled
from the spec (§4.2): six short-circuiting stages — structure, expiry,
token use, signature, issuer/audience, scopes — with a verification
cache keyed by the raw token whose TTL is
`min(configured cache TTL, remaining token lifetime)`. -/

/-- Identity claims: key-value assertions about the token subject. -/
abbrev Claims := List (String × String)

/-- A decoded bearer token.  `sigOk` abstracts "the detached signature
verifies against the key identified by `kid`", `wellFormed` abstracts
"three non-empty base64url segments with a decodable header". -/
structure Token where
  raw : String
  sub : String
  iss : String
  aud : String
  tokenUse : String
  scope : List String
  iat : Nat
  exp : Nat
  claims : Claims
  kid : String
  sigOk : Bool
  wellFormed : Bool
deriving DecidableEq, Repr

/-- Per-resource authorization policy plus gateway settings. -/
structure GatewayConfig where
  issuer : String
  audience : String
  requiredScopes : List String
  cacheTtl : Nat
  keyIds : List String
deriving DecidableEq, Repr

/-- Outcome of gateway verification: authorized with the verified
claims, or rejected with an HTTP status (401, or 403 for scope
failures). -/
inductive VerifyOutcome
  | authorized (claims : Claims)
  | rejected (status : Nat)
deriving DecidableEq, Repr

/-- Modelled from the spec: stage 1, structural check. -/
def checkStructure (t : Token) : Bool := t.wellFormed

/-- Modelled from the spec: stage 2, reject if current time is at or
past the token's `expiresAt`. -/
def checkExpiry (t : Token) (now : Nat) : Bool := decide (now < t.exp)

/-- Modelled from the spec: stage 3, the declared token type must be an
access token for resource authorization. -/
def checkTokenUse (t : Token) : Bool := decide (t.tokenUse = "access")

/-- Modelled from the spec: stage 4, the key identifier must resolve in
the current public key set and the signature must verify. -/
def checkSignature (cfg : GatewayConfig) (t : Token) : Bool :=
  decide (t.kid ∈ cfg.keyIds) && t.sigOk

/-- Modelled from the spec: stage 5, exact issuer and audience match. -/
def checkIssAud (cfg : GatewayConfig) (t : Token) : Bool :=
  decide (t.iss = cfg.issuer ∧ t.aud = cfg.audience)

/-- Modelled from the spec: stage 6, the token's scope set must be a
superset of the required scope set. -/
def checkScopes (cfg : GatewayConfig) (t : Token) : Bool :=
  decide (∀ s ∈ cfg.requiredScopes, s ∈ t.scope)

/-- Modelled from the spec: the six-stage verification pipeline, each
stage short-circuiting to `rejected` (401; 403 for scope failures). -/
def verifyToken (cfg : GatewayConfig) (t : Token) (now : Nat) : VerifyOutcome :=
  if !checkStructure t then VerifyOutcome.rejected 401
  else if !checkExpiry t now then VerifyOutcome.rejected 401
  else if !checkTokenUse t then VerifyOutcome.rejected 401
  else if !checkSignature cfg t then VerifyOutcome.rejected 401
  else if !checkIssAud cfg t then VerifyOutcome.rejected 401
  else if !checkScopes cfg t then VerifyOutcome.rejected 403
  else VerifyOutcome.authorized t.claims

/-- A cached `VerificationResult`: `{valid, claims, expiresAt, cachedAt}`,
keyed externally by the raw token string. -/
structure CacheEntry where
  valid : Bool
  claims : Claims
  tokenExp : Nat
  cachedAt : Nat
deriving DecidableEq, Repr

/-- The verification cache, keyed by the raw token string. -/
abbrev Cache := List (String × CacheEntry)

/-- Look up the cache entry stored under a raw token string. -/
def cacheLookup (cache : Cache) (raw : String) : Option CacheEntry :=
  (cache.find? (fun p => p.1 == raw)).map (fun p => p.2)

/-- Modelled from the spec: entry TTL is the minimum of the configured
cache TTL and the remaining token lifetime at caching time. -/
def entryTtl (cfg : GatewayConfig) (e : CacheEntry) : Nat :=
  min cfg.cacheTtl (e.tokenExp - e.cachedAt)

/-- A cache entry is served only strictly before `cachedAt + TTL`. -/
def cacheFresh (cfg : GatewayConfig) (e : CacheEntry) (now : Nat) : Bool :=
  decide (now < e.cachedAt + entryTtl cfg e)

/-- Run the full pipeline; on success cache the outcome under the raw
token with the caching timestamp. -/
def verifyAndCache (cfg : GatewayConfig) (cache : Cache) (t : Token)
    (now : Nat) : VerifyOutcome × Cache :=
  match verifyToken cfg t now with
  | VerifyOutcome.authorized cl =>
    (VerifyOutcome.authorized cl, (t.raw, CacheEntry.mk true cl t.exp now) :: cache)
  | VerifyOutcome.rejected s => (VerifyOutcome.rejected s, cache)

/-- Modelled from the spec: a request bearing a token consults the
cache first; a fresh entry is reused without re-running the pipeline,
otherwise the pipeline runs and a success is cached. -/
def handleRequest (cfg : GatewayConfig) (cache : Cache) (t : Token)
    (now : Nat) : VerifyOutcome × Cache :=
  match cacheLookup cache t.raw with
  | some e =>
    if cacheFresh cfg e now then
      (if e.valid then VerifyOutcome.authorized e.claims
       else VerifyOutcome.rejected 401, cache)
    else verifyAndCache cfg cache t now
  | none => verifyAndCache cfg cache t now

/-- Every cache entry was created no later than its token's expiry
(true of every entry the system itself writes, since only unexpired
tokens verify). -/
def CacheWF (cache : Cache) : Prop :=
  ∀ p ∈ cache, p.2.cachedAt ≤ p.2.tokenExp

/-- The entry stored under a token's raw string records that token's
expiry (true of system-written entries: the raw string determines the
token). -/
def CoherentFor (cache : Cache) (t : Token) : Prop :=
  ∀ e, cacheLookup cache t.raw = some e → e.tokenExp = t.exp

/-! ## Configuration values from the source -/

/-- `resultsCacheTtl: Duration.minutes(5)` of the authorizer, in
seconds. -/
def demoCacheTtl : Nat := 5 * 60

/-- `accessTokenValidity: Duration.minutes(60)` of the user-pool
client, in seconds. -/
def demoAccessTokenValidity : Nat := 60 * 60

/-- `authorizationScopes: ["email", "openid", "profile"]` of the
protected `GET /hello` method. -/
def demoRequiredScopes : List String := ["email", "openid", "profile"]

/-- The gateway configuration of the demo stack (issuer, audience and
key set are deployment-dependent; scopes and cache TTL come from the
source). -/
def demoConfig : GatewayConfig :=
  GatewayConfig.mk "https://cognito-idp.us-east-1.amazonaws.com/us-east-1_demo"
    "demo-client-id" demoRequiredScopes demoCacheTtl ["demo-key-1"]

/-! ## IdP behaviours (spec-modelled) and their source configuration -/

/-- `callbackUrls` of the user-pool client. -/
def callbackUrls : List String :=
  ["http://localhost:3000/callback", "https://oauth.pstmn.io/v1/callback"]

/-- Modelled from the spec: a redirect URL of the authorization-code
flow is accepted exactly when it is character-for-character a member of
the registered allow-list (exact match, no wildcard fallback). -/
def callbackAccepted (url : String) : Bool := decide (url ∈ callbackUrls)

/-- The `passwordPolicy` block of the user pool. -/
structure PasswordPolicy where
  minLength : Nat
  requireLowercase : Bool
  requireUppercase : Bool
  requireDigits : Bool
  requireSymbols : Bool
deriving DecidableEq, Repr

/-- `passwordPolicy: { minLength: 8, requireLowercase: true,
requireUppercase: true, requireDigits: true, requireSymbols: true }`. -/
def demoPasswordPolicy : PasswordPolicy := PasswordPolicy.mk 8 true true true true

/-- The password symbol characters recognized by the IdP. -/
def symbolChars : List Char :=
  "^$*.[]\x7b\x7d()?-\"!@#%&/\\,><':;|_~`+=".toList

/-- `c` counts towards the symbol character-class requirement. -/
def isSymbolChar (c : Char) : Bool := decide (c ∈ symbolChars)

/-- One unmet requirement of the password policy. -/
inductive PasswordRequirement
  | minLength
  | lowercase
  | uppercase
  | digits
  | symbols
deriving DecidableEq, Repr

/-- Modelled from the spec: the account-creation password gate returns
the structured list of unmet policy requirements. -/
def unmetRequirements (p : PasswordPolicy) (pw : List Char) : List PasswordRequirement :=
  (if pw.length < p.minLength then [PasswordRequirement.minLength] else []) ++
  (if p.requireLowercase && !pw.any isLowerAscii then [PasswordRequirement.lowercase] else []) ++
  (if p.requireUppercase && !pw.any isUpperAscii then [PasswordRequirement.uppercase] else []) ++
  (if p.requireDigits && !pw.any isDigitAscii then [PasswordRequirement.digits] else []) ++
  (if p.requireSymbols && !pw.any isSymbolChar then [PasswordRequirement.symbols] else [])

/-- Result of a sign-up attempt. -/
inductive SignUpResult
  | ok
  | weakPassword (unmet : List PasswordRequirement)
deriving DecidableEq, Repr

/-- Modelled from the spec: account creation succeeds exactly when the
password gate reports no unmet requirement; otherwise it fails with
`WeakPassword` carrying the structured list. -/
def signUp (p : PasswordPolicy) (pw : List Char) : SignUpResult :=
  if unmetRequirements p pw = [] then SignUpResult.ok
  else SignUpResult.weakPassword (unmetRequirements p pw)

/-- Result of a login attempt. -/
inductive LoginResult
  | success (sub : String)
  | failure (message : String)
deriving DecidableEq, Repr

/-- The generic failure response shared by "account not found" and
"wrong password" under the anti-disclosure policy. -/
def genericAuthFailure : String :=
  "NotAuthorizedException: Incorrect username or password."

/-- Credential lookup in the IdP's user store (email to stored
password). -/
def findUser (users : List (String × String)) (email : String) : Option String :=
  (users.find? (fun u => u.1 == email)).map (fun u => u.2)

/-- Modelled from the spec: IdP login.  With `preventDisclosure` (the
`preventUserExistenceErrors: true` client setting) active, an unknown
email and a wrong password yield byte-identical generic failures; with
it off, an unknown email is reported distinctly. -/
def login (preventDisclosure : Bool) (users : List (String × String))
    (email password : String) : LoginResult :=
  match findUser users email with
  | none =>
    if preventDisclosure then LoginResult.failure genericAuthFailure
    else LoginResult.failure "UserNotFoundException"
  | some stored =>
    if password == stored then LoginResult.success email
    else LoginResult.failure genericAuthFailure

/-! ## Backend handler (`lambda-construct.ts`) -/

/-- The authorizer block of the forwarded request context. -/
structure Authorizer where
  claims : Claims
deriving DecidableEq, Repr

/-- The request context the gateway forwards. -/
structure RequestContext where
  authorizer : Authorizer
deriving DecidableEq, Repr

/-- The integration event delivered to the Lambda.  The gateway places
the verified claims under `requestContext.authorizer.claims`; the event
type carries no raw-token field. -/
structure LambdaEvent where
  requestContext : RequestContext
deriving DecidableEq, Repr

/-- The handler's response: status code, content type, and the JSON
body's two fields (`message`, `cognitoUser`). -/
structure LambdaResponse where
  statusCode : Nat
  contentType : String
  message : String
  cognitoUser : Claims
deriving DecidableEq, Repr

/-- The inline handler of `lambda-construct.ts`: unconditionally status
200 with the static greeting and the claims read from
`event.requestContext.authorizer.claims`. -/
def handler (event : LambdaEvent) : LambdaResponse :=
  LambdaResponse.mk 200 "application/json" "Hello from protected API!"
    event.requestContext.authorizer.claims

/-- On success the gateway forwards only the verified claims to the
backend. -/
def forwardEvent (cl : Claims) : LambdaEvent :=
  LambdaEvent.mk (RequestContext.mk (Authorizer.mk cl))

/-! ## Concrete inputs used by the witnesses -/

/-- An otherwise-valid access token carrying only the scopes
`email` and `openid`. -/
def tokenTwoScopes : Token :=
  Token.mk "rawA" "sub-1" "https://cognito-idp.us-east-1.amazonaws.com/us-east-1_demo"
    "demo-client-id" "access" ["email", "openid"] 0 3600
    [("sub", "sub-1")] "demo-key-1" true true

/-- The demo gateway configuration with the required scopes replaced by
`["email"]`. -/
def emailOnlyConfig : GatewayConfig :=
  GatewayConfig.mk "https://cognito-idp.us-east-1.amazonaws.com/us-east-1_demo"
    "demo-client-id" ["email"] demoCacheTtl ["demo-key-1"]

/-- A cache entry written at time 100 for a token expiring at 3600. -/
def demoCacheEntry : CacheEntry := CacheEntry.mk true [("sub", "sub-1")] 3600 100

/-- An access token carrying all three required scopes. -/
def tokenFull : Token :=
  Token.mk "rawB" "sub-2" "https://cognito-idp.us-east-1.amazonaws.com/us-east-1_demo"
    "demo-client-id" "access" ["email", "openid", "profile"] 0 3600
    [("sub", "sub-2")] "demo-key-1" true true

end CognitoDemo

namespace CognitoDemo

/-! ## Lemmas about the de-branding replacement -/

theorem replaceCognito_length (s : List Char) :
    (replaceCognito s).length ≤ s.length := by
  induction s using replaceCognito.induct with
  | case1 rest ih => simp only [replaceCognito, List.length_append,
      List.length_cons, authRep, List.length_nil]; omega
  | case2 c rest hne ih =>
    rw [replaceCognito]
    · simpa using ih
    · exact hne
  | case3 => simp [replaceCognito]

theorem replaceCognito_mem {c : Char} {s : List Char}
    (h : c ∈ replaceCognito s) : c ∈ s ∨ c ∈ authRep := by
  induction s using replaceCognito.induct with
  | case1 rest ih =>
    rw [replaceCognito] at h
    rcases List.mem_append.1 h with h | h
    · exact Or.inr h
    · rcases ih h with h | h
      · exact Or.inl (by simp [h])
      · exact Or.inr h
  | case2 c' rest hne ih =>
    rw [replaceCognito] at h
    · rcases List.mem_cons.1 h with rfl | h
      · exact Or.inl (List.mem_cons_self _ _)
      · rcases ih h with h | h
        · exact Or.inl (List.mem_cons_of_mem _ h)
        · exact Or.inr h
    · exact hne
  | case3 => simp [replaceCognito] at h

theorem prefix_kept {p s : List Char} (ha : 'a' ∉ p)
    (hp : p <+: replaceCognito s) : p <+: s := by
  induction s using replaceCognito.induct generalizing p with
  | case1 rest ih =>
    rw [replaceCognito] at hp
    rw [show authRep ++ replaceCognito rest
      = 'a' :: ('u' :: 't' :: 'h' :: replaceCognito rest) from rfl] at hp
    match p, hp with
    | [], _ => exact List.nil_prefix
    | ch :: p', hp =>
      rcases (List.cons_prefix_cons).1 hp with ⟨rfl, _⟩
      exact absurd (List.mem_cons_self _ _) ha
  | case2 c rest hne ih =>
    rw [replaceCognito] at hp
    · match p, hp with
      | [], _ => exact List.nil_prefix
      | ch :: p', hp =>
        rcases (List.cons_prefix_cons).1 hp with ⟨rfl, hp'⟩
        have ha' : 'a' ∉ p' := fun hm => ha (List.mem_cons_of_mem _ hm)
        exact (List.cons_prefix_cons).2 ⟨rfl, ih ha' hp'⟩
    · exact hne
  | case3 =>
    rw [replaceCognito] at hp
    rw [List.prefix_nil.1 hp]

theorem infix_shift {x t : List Char} (hx : ∀ ch ∈ x, ch ≠ 'c')
    (h : cognitoPat <:+: x ++ t) : cognitoPat <:+: t := by
  induction x with
  | nil => simpa using h
  | cons c x' ih =>
    rw [List.cons_append, List.infix_cons_iff] at h
    rcases h with h | h
    · rcases (List.cons_prefix_cons).1 h with ⟨hc, _⟩
      exact absurd hc.symm (hx c (List.mem_cons_self _ _))
    · exact ih (fun ch hm => hx ch (List.mem_cons_of_mem _ hm)) h

theorem replaceCognito_no_cognito (s : List Char) :
    ¬ cognitoPat <:+: replaceCognito s := by
  induction s using replaceCognito.induct with
  | case1 rest ih =>
    intro h
    rw [replaceCognito] at h
    exact ih (infix_shift (by decide) h)
  | case2 c rest hne ih =>
    intro h
    rw [replaceCognito] at h
    · rcases List.infix_cons_iff.1 h with h | h
      · rcases (List.cons_prefix_cons).1 h with ⟨rfl, hp⟩
        have hrest : ['o', 'g', 'n', 'i', 't', 'o'] <+: rest :=
          prefix_kept (by decide) hp
        rcases hrest with ⟨t, ht⟩
        exact hne t rfl ht.symm
      · exact ih h
    · exact hne
  | case3 => simp [replaceCognito, cognitoPat]

theorem allowedChar_not_upper {c : Char} (h : allowedChar c = true) :
    isUpperAscii c = false := by
  simp only [allowedChar, isLowerAscii, isDigitAscii, isUpperAscii,
    Bool.or_eq_true, Bool.and_eq_true, decide_eq_true_eq,
    Bool.and_eq_false_iff, decide_eq_false_iff_not] at *
  omega

theorem sanitize_allowed {c : Char} {s : List Char} (h : c ∈ sanitize s) :
    allowedChar c = true := by
  rcases List.mem_map.1 h with ⟨d, _, rfl⟩
  unfold sanitizeChar
  split
  · assumption
  · decide

theorem domainPrefix_allowed {c : Char} {stackName region suffix : List Char}
    (h : c ∈ uniqueDomainPrefix stackName region suffix) :
    allowedChar c = true := by
  rcases replaceCognito_mem h with h | h
  · exact sanitize_allowed h
  · fin_cases h <;> decide

/-- C1: the domain-prefix generation performs exactly, and in this
order, the four stages compose (lower-cased stack name, region, random
suffix joined by hyphens), truncate to 63, sanitize characters outside
`[a-z0-9-]` to `-`, and replace every `cognito` by `auth`. -/
theorem domainPrefix_stage_order (stackName region suffix : List Char) :
    uniqueDomainPrefix stackName region suffix
      = debrandStage (sanitizeStage (truncateStage
          (composeStage stackName region suffix))) := rfl

/-- C2: for every stack name, region and random suffix, the generated
domain prefix contains no underscore, no ASCII uppercase letter, no
exclamation mark, no occurrence of the substring `cognito`, and has
length at most 63 — in particular for the stack name
`My_Cognito_Stack!!` with region `us-east-1`. -/
theorem domainPrefix_sanitized (stackName region suffix : List Char) :
    '_' ∉ uniqueDomainPrefix stackName region suffix ∧
    (∀ c ∈ uniqueDomainPrefix stackName region suffix, isUpperAscii c = false) ∧
    '!' ∉ uniqueDomainPrefix stackName region suffix ∧
    ¬ cognitoPat <:+: uniqueDomainPrefix stackName region suffix ∧
    (uniqueDomainPrefix stackName region suffix).length ≤ 63 := by
  refine ⟨fun h => ?_, fun c hc => allowedChar_not_upper (domainPrefix_allowed hc),
    fun h => ?_, replaceCognito_no_cognito _, ?_⟩
  · exact absurd (domainPrefix_allowed h) (by decide)
  · exact absurd (domainPrefix_allowed h) (by decide)
  · calc (uniqueDomainPrefix stackName region suffix).length
        ≤ (sanitize ((stackName.map lowerChar ++ ['-'] ++ region
            ++ ['-'] ++ suffix).take 63)).length := replaceCognito_length _
      _ ≤ 63 := by simp [sanitize]

/-- C10: for every expansion the randomness source can produce, the
random suffix consists only of base-36 digits `[0-9a-z]` and has length
at most 6, but is not always exactly 6 characters: the zero expansion
yields the empty suffix and a one-digit expansion yields a one-character
suffix. -/
theorem randomSuffix_bounded (digits : List Char)
    (hd : ∀ c ∈ digits, base36Digit c = true) :
    (∀ c ∈ randomSuffix digits, base36Digit c = true) ∧
    (randomSuffix digits).length ≤ 6 ∧
    randomSuffix [] = [] ∧
    (randomSuffix ['i']).length = 1 := by
  refine ⟨?_, ?_, by decide, by decide⟩
  · intro c hc
    match digits, hd with
    | [], _ => simp [randomSuffix, toString36] at hc
    | d :: ds, hd =>
      simp only [randomSuffix, toString36, List.isEmpty_cons, if_neg,
        List.drop_succ_cons, List.drop_zero] at hc
      exact hd c (List.take_subset _ _ hc)
  · match digits with
    | [] => decide
    | d :: ds =>
      simp [randomSuffix, toString36, List.length_take]

/-- Witness for C10 at the concrete expansion `k7gh2mzq`. -/
theorem randomSuffix_bounded_witness :
    (∀ c ∈ ("k7gh2mzq".toList), base36Digit c = true) ∧
    ((∀ c ∈ randomSuffix "k7gh2mzq".toList, base36Digit c = true) ∧
     (randomSuffix "k7gh2mzq".toList).length ≤ 6 ∧
     randomSuffix [] = [] ∧
     (randomSuffix ['i']).length = 1) :=
  ⟨by decide, randomSuffix_bounded "k7gh2mzq".toList (by decide)⟩

end CognitoDemo

namespace CognitoDemo

/-! ## Lemmas about the verification pipeline and the cache -/

theorem verify_rejects_expired {cfg : GatewayConfig} {t : Token} {now : Nat}
    (h : t.exp ≤ now) : verifyToken cfg t now = VerifyOutcome.rejected 401 := by
  have he : checkExpiry t now = false := by
    simp [checkExpiry]
    omega
  rcases hs : checkStructure t with _ | _
  · simp [verifyToken, hs, he]
  · simp [verifyToken, hs, he]

theorem verify_authorized_now_lt_exp {cfg : GatewayConfig} {t : Token}
    {now : Nat} {cl : Claims}
    (h : verifyToken cfg t now = VerifyOutcome.authorized cl) :
    now < t.exp ∧ cl = t.claims := by
  unfold verifyToken at h
  split_ifs at h with h1 h2 h3 h4 h5 h6 <;>
    simp_all [checkExpiry]

theorem fresh_bound {cfg : GatewayConfig} {e : CacheEntry} {now : Nat}
    (hwf : e.cachedAt ≤ e.tokenExp)
    (h : cacheFresh cfg e now = true) :
    now < e.cachedAt + cfg.cacheTtl ∧ now < e.tokenExp := by
  simp only [cacheFresh, entryTtl, decide_eq_true_eq] at h
  omega

theorem expired_request_rejected {cfg : GatewayConfig} {cache : Cache}
    {t : Token} {now : Nat}
    (hwf : CacheWF cache) (hco : CoherentFor cache t) (hnow : t.exp ≤ now) :
    (handleRequest cfg cache t now).1 = VerifyOutcome.rejected 401 := by
  have hvc : (verifyAndCache cfg cache t now).1 = VerifyOutcome.rejected 401 := by
    simp [verifyAndCache, verify_rejects_expired hnow]
  rcases hl : cacheLookup cache t.raw with _ | e
  · simp [handleRequest, hl, hvc]
  · have hmem : ∃ p ∈ cache, p.2 = e := by
      unfold cacheLookup at hl
      rcases hfind : cache.find? (fun p => p.1 == t.raw) with _ | p
      · simp [hfind] at hl
      · simp [hfind] at hl
        exact ⟨p, List.mem_of_find?_eq_some hfind, hl⟩
    rcases hmem with ⟨p, hpmem, rfl⟩
    have hwfe : p.2.cachedAt ≤ p.2.tokenExp := hwf p hpmem
    have hcoe : p.2.tokenExp = t.exp := hco p.2 hl
    have hstale : cacheFresh cfg p.2 now = false := by
      by_contra hc
      have := fresh_bound hwfe (by simpa using hc)
      omega
    simp [handleRequest, hl, hstale, hvc]

theorem handleRequest_cacheWF {cfg : GatewayConfig} {cache : Cache}
    {t : Token} {now : Nat} (hwf : CacheWF cache) :
    CacheWF (handleRequest cfg cache t now).2 := by
  have hvc : CacheWF (verifyAndCache cfg cache t now).2 := by
    unfold verifyAndCache
    rcases hv : verifyToken cfg t now with cl | s
    · intro p hp
      rcases List.mem_cons.1 hp with rfl | hp
      · exact Nat.le_of_lt (verify_authorized_now_lt_exp hv).1
      · exact hwf p hp
    · exact hwf
  rcases hl : cacheLookup cache t.raw with _ | e
  · simpa [handleRequest, hl] using hvc
  · rcases hfr : cacheFresh cfg e now
    · simpa [handleRequest, hl, hfr] using hvc
    · simpa [handleRequest, hl, hfr] using hwf

theorem handleRequest_coherent {cfg : GatewayConfig} {cache : Cache}
    {t : Token} {now : Nat} (hco : CoherentFor cache t) :
    CoherentFor (handleRequest cfg cache t now).2 t := by
  have hvc : CoherentFor (verifyAndCache cfg cache t now).2 t := by
    unfold verifyAndCache
    rcases hv : verifyToken cfg t now with cl | s
    · intro e he
      simp [cacheLookup] at he
      rw [← he]
    · exact hco
  rcases hl : cacheLookup cache t.raw with _ | e
  · simpa [handleRequest, hl] using hvc
  · rcases hfr : cacheFresh cfg e now
    · simpa [handleRequest, hl, hfr] using hvc
    · simpa [handleRequest, hl, hfr] using hco

/-- C3: when the other five verification stages pass, verification
succeeds if and only if the token's scope set is a superset of the
required scope set of the protected method. -/
theorem scope_superset_iff (cfg : GatewayConfig) (t : Token) (now : Nat)
    (h1 : checkStructure t = true) (h2 : checkExpiry t now = true)
    (h3 : checkTokenUse t = true) (h4 : checkSignature cfg t = true)
    (h5 : checkIssAud cfg t = true) :
    (∃ cl, verifyToken cfg t now = VerifyOutcome.authorized cl)
      ↔ ∀ s ∈ cfg.requiredScopes, s ∈ t.scope := by
  rcases h6 : checkScopes cfg t with _ | _
  · simp [verifyToken, h1, h2, h3, h4, h5, h6]
    have h6' : ¬∀ s ∈ cfg.requiredScopes, s ∈ t.scope := by
      simpa only [checkScopes, decide_eq_false_iff_not] using h6
    push_neg at h6'
    exact h6'
  · simp [verifyToken, h1, h2, h3, h4, h5, h6]
    simpa only [checkScopes, decide_eq_true_eq] using h6

/-- Witness for C3: scopes `{email, openid}` are rejected against the
requirement `{email, openid, profile}` and accepted against `{email}`. -/
theorem scope_superset_iff_witness :
    (checkStructure tokenTwoScopes = true ∧ checkExpiry tokenTwoScopes 10 = true ∧
     checkTokenUse tokenTwoScopes = true ∧
     checkSignature demoConfig tokenTwoScopes = true ∧
     checkIssAud demoConfig tokenTwoScopes = true) ∧
    ¬ (∃ cl, verifyToken demoConfig tokenTwoScopes 10 = VerifyOutcome.authorized cl) ∧
    (∃ cl, verifyToken emailOnlyConfig tokenTwoScopes 10 = VerifyOutcome.authorized cl) := by
  refine ⟨by decide, fun h => ?_, ?_⟩
  · have := (scope_superset_iff demoConfig tokenTwoScopes 10 (by decide) (by decide)
      (by decide) (by decide) (by decide)).1 h
    exact absurd this (by decide)
  · exact (scope_superset_iff emailOnlyConfig tokenTwoScopes 10 (by decide) (by decide)
      (by decide) (by decide) (by decide)).2 (by decide)

/-- C4: a cache entry is served only strictly before both
`cachedAt + cacheTtl` and the token's `expiresAt`, and at or past the
token's expiry a request bearing the token is rejected with 401 even
though the entry is still in the cache. -/
theorem cached_result_bounded (cfg : GatewayConfig) (cache : Cache) (t : Token)
    (e : CacheEntry) (now : Nat)
    (hlk : cacheLookup cache t.raw = some e)
    (hwf : CacheWF cache) (hco : CoherentFor cache t) :
    (cacheFresh cfg e now = true → now < e.cachedAt + cfg.cacheTtl ∧ now < t.exp) ∧
    (t.exp ≤ now → (handleRequest cfg cache t now).1 = VerifyOutcome.rejected 401) := by
  have hmem : ∃ p ∈ cache, p.2 = e := by
    unfold cacheLookup at hlk
    rcases hfind : cache.find? (fun p => p.1 == t.raw) with _ | p
    · simp [hfind] at hlk
    · simp [hfind] at hlk
      exact ⟨p, List.mem_of_find?_eq_some hfind, hlk⟩
  rcases hmem with ⟨p, hpmem, rfl⟩
  constructor
  · intro hf
    have := fresh_bound (hwf p hpmem) hf
    have := hco p.2 hlk
    omega
  · intro hnow
    exact expired_request_rejected hwf hco hnow

/-- Witness for C4 with the 5-minute cache TTL and a token of 60-minute
lifetime, evaluated at the token's expiry time 3600. -/
theorem cached_result_bounded_witness :
    (cacheLookup [("rawA", demoCacheEntry)] tokenTwoScopes.raw = some demoCacheEntry ∧
     CacheWF [("rawA", demoCacheEntry)] ∧
     CoherentFor [("rawA", demoCacheEntry)] tokenTwoScopes) ∧
    ((cacheFresh demoConfig demoCacheEntry 3600 = true →
        3600 < demoCacheEntry.cachedAt + demoConfig.cacheTtl ∧ 3600 < tokenTwoScopes.exp) ∧
     (tokenTwoScopes.exp ≤ 3600 →
        (handleRequest demoConfig [("rawA", demoCacheEntry)] tokenTwoScopes 3600).1
          = VerifyOutcome.rejected 401)) := by
  have hwf : CacheWF [("rawA", demoCacheEntry)] := by
    intro p hp
    simp only [List.mem_singleton] at hp
    subst hp
    decide
  have hco : CoherentFor [("rawA", demoCacheEntry)] tokenTwoScopes := by
    intro e he
    simp [cacheLookup, demoCacheEntry, tokenTwoScopes] at he
    rw [← he]
    decide
  exact ⟨⟨by decide, hwf, hco⟩,
    cached_result_bounded demoConfig [("rawA", demoCacheEntry)] tokenTwoScopes
      demoCacheEntry 3600 (by decide) hwf hco⟩

/-- C5: a request verified successfully at time `tfirst` is rejected
with 401 (never 200) when replayed at any time at or past the token's
`expiresAt`, including through the cache the first request left
behind. -/
theorem expired_replay_rejected (cfg : GatewayConfig) (c0 : Cache) (t : Token)
    (tfirst now : Nat) (cl : Claims)
    (hwf : CacheWF c0) (hco : CoherentFor c0 t)
    (hfirst : (handleRequest cfg c0 t tfirst).1 = VerifyOutcome.authorized cl)
    (hnow : t.exp ≤ now) :
    (handleRequest cfg (handleRequest cfg c0 t tfirst).2 t now).1
      = VerifyOutcome.rejected 401 :=
  expired_request_rejected (handleRequest_cacheWF hwf) (handleRequest_coherent hco) hnow

/-- Witness for C5: a fully valid token authorized at time 10 is
rejected when replayed at its expiry time 3600. -/
theorem expired_replay_rejected_witness :
    (CacheWF [] ∧ CoherentFor [] tokenFull ∧
     (handleRequest demoConfig [] tokenFull 10).1
       = VerifyOutcome.authorized tokenFull.claims ∧
     tokenFull.exp ≤ 3600) ∧
    (handleRequest demoConfig (handleRequest demoConfig [] tokenFull 10).2
        tokenFull 3600).1 = VerifyOutcome.rejected 401 := by
  refine ⟨⟨?_, ?_, by decide, by decide⟩, ?_⟩
  · intro p hp
    simp at hp
  · intro e he
    simp [cacheLookup] at he
  · exact expired_replay_rejected demoConfig [] tokenFull 10 3600 tokenFull.claims
      (by intro p hp; simp at hp) (by intro e he; simp [cacheLookup] at he)
      (by decide) (by decide)

/-- C6: a redirect URL is accepted exactly when it is a
character-for-character member of the registered allow-list; the
trailing-slash variant of the localhost callback is rejected. -/
theorem callback_exact_match :
    (∀ u : String, callbackAccepted u = true ↔
      (u = "http://localhost:3000/callback" ∨ u = "https://oauth.pstmn.io/v1/callback")) ∧
    callbackAccepted "http://localhost:3000/callback/" = false := by
  refine ⟨fun u => ?_, by decide⟩
  simp [callbackAccepted, callbackUrls]

/-- C7: account creation is gated by the configured password policy as
a structured validation gate: `abc` fails with `WeakPassword` listing
the unmet requirements, `Abc12345!` is accepted, and in general a
password is accepted exactly when it meets the length bound and all
four character-class requirements. -/
theorem password_gate :
    signUp demoPasswordPolicy "abc".toList
      = SignUpResult.weakPassword [PasswordRequirement.minLength,
          PasswordRequirement.uppercase, PasswordRequirement.digits,
          PasswordRequirement.symbols] ∧
    signUp demoPasswordPolicy "Abc12345!".toList = SignUpResult.ok ∧
    (∀ pw : List Char, signUp demoPasswordPolicy pw = SignUpResult.ok ↔
      (8 ≤ pw.length ∧ pw.any isLowerAscii = true ∧ pw.any isUpperAscii = true ∧
       pw.any isDigitAscii = true ∧ pw.any isSymbolChar = true)) := by
  refine ⟨by decide, by decide, fun pw => ?_⟩
  unfold signUp
  split
  · rename_i hempty
    simp only [true_iff]
    have e1 : 8 ≤ pw.length := by
      by_contra hlen
      simp [unmetRequirements, demoPasswordPolicy, show pw.length < 8 by omega] at hempty
    have e2 : pw.any isLowerAscii = true := by
      by_contra hx
      rw [Bool.not_eq_true] at hx
      simp [unmetRequirements, demoPasswordPolicy, hx] at hempty
    have e3 : pw.any isUpperAscii = true := by
      by_contra hx
      rw [Bool.not_eq_true] at hx
      simp [unmetRequirements, demoPasswordPolicy, hx] at hempty
    have e4 : pw.any isDigitAscii = true := by
      by_contra hx
      rw [Bool.not_eq_true] at hx
      simp [unmetRequirements, demoPasswordPolicy, hx] at hempty
    have e5 : pw.any isSymbolChar = true := by
      by_contra hx
      rw [Bool.not_eq_true] at hx
      simp [unmetRequirements, demoPasswordPolicy, hx] at hempty
    exact ⟨e1, e2, e3, e4, e5⟩
  · rename_i hne
    simp only [reduceCtorEq, false_iff]
    rintro ⟨g1, g2, g3, g4, g5⟩
    exact hne (by
      simp [unmetRequirements, demoPasswordPolicy, g2, g3, g4, g5,
        show ¬ pw.length < 8 from Nat.not_lt.2 g1])

/-- C8: with the anti-disclosure policy active, a login with an unknown
email and a login with a known email but wrong password produce
byte-identical error responses. -/
theorem existence_disclosure_parity (users : List (String × String))
    (e1 pw1 e2 pw2 stored : String)
    (h1 : findUser users e1 = none)
    (h2 : findUser users e2 = some stored) (h3 : pw2 ≠ stored) :
    login true users e1 pw1 = login true users e2 pw2 := by
  simp [login, h1, h2, h3]

/-- Witness for C8 over a one-user store. -/
theorem existence_disclosure_parity_witness :
    (findUser [("alice@example.com", "Abc12345!")] "bob@example.com" = none ∧
     findUser [("alice@example.com", "Abc12345!")] "alice@example.com" = some "Abc12345!" ∧
     ("Wrong999#" : String) ≠ "Abc12345!") ∧
    login true [("alice@example.com", "Abc12345!")] "bob@example.com" "Hunter2!x"
      = login true [("alice@example.com", "Abc12345!")] "alice@example.com" "Wrong999#" :=
  ⟨⟨by decide, by decide, by decide⟩,
    existence_disclosure_parity [("alice@example.com", "Abc12345!")]
      "bob@example.com" "Hunter2!x" "alice@example.com" "Wrong999#" "Abc12345!"
      (by decide) (by decide) (by decide)⟩

/-- C9: the backend handler receives only the verified claims (under
`requestContext.authorizer.claims`, with no raw-token field in the
event), performs no verification of its own, and returns status 200
with the static greeting plus those claims. -/
theorem backend_trusts_claims :
    (∀ cl : Claims, handler (forwardEvent cl)
      = LambdaResponse.mk 200 "application/json" "Hello from protected API!" cl) ∧
    (∀ ev : LambdaEvent, (handler ev).statusCode = 200 ∧
      (handler ev).message = "Hello from protected API!" ∧
      (handler ev).cognitoUser = ev.requestContext.authorizer.claims) :=
  ⟨fun _ => rfl, fun _ => ⟨rfl, rfl, rfl⟩⟩

end CognitoDemo
